import Mathlib

/-!
Verification development for the alpha-model / portfolio-construction core of
the trade-executor repository (src/tradeexecutor/strategy/alpha_model.py).

Numbers: Python floats are embedded as rationals; floating-point rounding is
not modelled.  Python dicts are embedded as insertion-ordered association
lists.  Python assert / raise are embedded as the Except monad.

The Position Manager and Portfolio are external collaborators (spec section 6);
they are embedded as an abstract record of functions.
-/

namespace TradeExec

/-- Modelled from the spec: the pair-kind predicates
TradingPairIdentifier.is_spot / is_long / is_short are called by
alpha_model.py but are missing from src/tradeexecutor/state/identifier.py.
The spec's state machine uses exactly the three instrument types
spot/long vs short (spec sections 4.6, 4.7). -/
inductive PairKind where
  | spot
  | leveragedLong
  | leveragedShort
deriving DecidableEq, Repr

/-- Trading pair identity: internal id plus instrument kind.
Mirrors TradingPairIdentifier of src/tradeexecutor/state/identifier.py,
reduced to the fields alpha_model.py observes. -/
structure TradingPairIdentifier where
  internal_id : Nat
  kind : PairKind
deriving DecidableEq, Repr

/-- Modelled from the spec: spot instrument test (missing from src). -/
def TradingPairIdentifier.is_spot (p : TradingPairIdentifier) : Bool :=
  p.kind = PairKind.spot

/-- Modelled from the spec: leveraged-long instrument test (missing from src). -/
def TradingPairIdentifier.is_long (p : TradingPairIdentifier) : Bool :=
  p.kind = PairKind.leveragedLong

/-- Modelled from the spec: leveraged-short instrument test (missing from src). -/
def TradingPairIdentifier.is_short (p : TradingPairIdentifier) : Bool :=
  p.kind = PairKind.leveragedShort

/-- One asset in the alpha model weighting: TradingPairSignal of
src/tradeexecutor/strategy/alpha_model.py (lines 28-217).
Fields irrelevant to the claims (timestamps, info URLs) are omitted. -/
structure TradingPairSignal where
  pair : TradingPairIdentifier
  signal : ℚ
  stop_loss : Option ℚ := none
  take_profit : Option ℚ := none
  trailing_stop_loss : Option ℚ := none
  raw_weight : ℚ := 0
  normalised_weight : ℚ := 0
  old_weight : ℚ := 0
  old_value : ℚ := 0
  old_pair : Option TradingPairIdentifier := none
  position_target : ℚ := 0
  position_adjust_usd : ℚ := 0
  position_adjust_quantity : ℚ := 0
  position_id : Option Nat := none
  position_adjust_ignored : Bool := false
  profit_before_trades : ℚ := 0
  profit_before_trades_pct : ℚ := 0
  synthetic_pair : Option TradingPairIdentifier := none
  leverage : Option ℚ := none
deriving DecidableEq, Repr

/-- TradingPairSignal.__post_init__ (alpha_model.py lines 219-229):
the pair must be spot; Python `if self.leverage:` is truthiness, so the
positivity assert runs only when leverage is present and non-zero. -/
def postInitCheck (s : TradingPairSignal) : Except String TradingPairSignal :=
  if s.pair.is_spot = false then
    Except.error "Signals must be identified by their spot pairs"
  else
    match s.leverage with
    | none => Except.ok s
    | some l =>
      if l = 0 then Except.ok s
      else if 0 < l then Except.ok s
      else Except.error "leverage must be positive"

/-- TradingPairSignal.is_flipping (alpha_model.py lines 275-297). -/
def TradingPairSignal.is_flipping (s : TradingPairSignal) : Bool :=
  if s.normalised_weight = 0 then false
  else
    match s.old_pair with
    | none => false
    | some op =>
      if s.signal < 0 then op.is_long || op.is_spot
      else if 0 < s.signal then op.is_short
      else false

/-- TradingPairSignal.is_new (alpha_model.py lines 268-270). -/
def TradingPairSignal.is_new (s : TradingPairSignal) : Bool :=
  s.old_weight = 0

/-- Insertion-ordered association list lookup (Python dict read). -/
def lookupA {α : Type} (l : List (Nat × α)) (k : Nat) : Option α :=
  (l.find? (fun kv => kv.1 = k)).map (fun kv => kv.2)

/-- Insertion-ordered association list update (Python dict write):
replace in place if the key exists, else append. -/
def insertA {α : Type} (l : List (Nat × α)) (k : Nat) (v : α) : List (Nat × α) :=
  if l.any (fun kv => kv.1 = k) then
    l.map (fun kv => if kv.1 = k then (k, v) else kv)
  else
    l ++ [(k, v)]

/-- Association list key removal (Python `del d[k]`). -/
def eraseA {α : Type} (l : List (Nat × α)) (k : Nat) : List (Nat × α) :=
  l.filter (fun kv => kv.1 ≠ k)

/-- The default dust threshold 0.005 = 1/200 (alpha_model.py line 389),
written in reduced constructor form so that it evaluates in the kernel. -/
def defaultCloseEpsilon : ℚ := ⟨1, 200, by norm_num, by norm_num⟩

/-- Alpha model state for one strategy cycle: AlphaModel of alpha_model.py
(lines 332-393).  The timestamp is omitted (not observed by any claim). -/
structure AlphaModel where
  raw_signals : List (Nat × TradingPairSignal) := []
  signals : List (Nat × TradingPairSignal) := []
  investable_equity : ℚ := 0
  close_position_weight_epsilon : ℚ := defaultCloseEpsilon
  override_stop_loss : Bool := false
deriving DecidableEq, Repr

/-- AlphaModel.set_signal (alpha_model.py lines 435-513).
Note the alpha-negative check (line 496) only rejects a missing leverage
(`leverage is not None`); the positivity check lives in postInitCheck. -/
def AlphaModel.set_signal
    (m : AlphaModel)
    (pair : TradingPairIdentifier)
    (alpha : ℚ)
    (stop_loss take_profit trailing_stop_loss leverage : Option ℚ) :
    Except String AlphaModel :=
  if pair.is_spot = false then
    Except.error "Signals are tracked by their spot pairs"
  else if alpha < 0 ∧ leverage = none then
    Except.error "Leverage must be set for short"
  else if alpha = 0 then
    Except.ok { m with raw_signals := eraseA m.raw_signals pair.internal_id }
  else
    match postInitCheck
      { pair := pair
        signal := alpha
        stop_loss := stop_loss
        take_profit := take_profit
        trailing_stop_loss := trailing_stop_loss
        leverage := leverage } with
    | Except.error e => Except.error e
    | Except.ok s =>
      Except.ok { m with raw_signals := insertA m.raw_signals pair.internal_id s }

/-- AlphaModel.select_top_signals (alpha_model.py lines 544-581):
filter raw signals by absolute strength (inclusive threshold), take the
`count` entries with the largest raw_weight (heapq.nlargest is equivalent
to a stable descending sort followed by take), key the result by pair id. -/
def AlphaModel.select_top_signals (m : AlphaModel) (count : Nat) (threshold : ℚ) :
    AlphaModel :=
  let filtered_signals :=
    (m.raw_signals.map (fun kv => kv.2)).filter (fun s => threshold ≤ |s.signal|)
  let top_signals :=
    (filtered_signals.mergeSort (fun a b => b.raw_weight ≤ a.raw_weight)).take count
  { m with signals := top_signals.map (fun s => (s.pair.internal_id, s)) }

/-- Modelled from the spec: check_normalised_weights of
src/tradeexecutor/strategy/weighting.py, which is not under src/.
The spec requires normalised weights to sum to 1 within floating tolerance
(or to 0 when nothing is selected); violation is fatal (spec sections 2, 7, 8). -/
def check_normalised_weights (ws : List (Nat × ℚ)) : Except String Unit :=
  let total := (ws.map (fun kv => kv.2)).sum
  if total = 0 then Except.ok ()
  else if |total - 1| ≤ 1 / 100 then Except.ok ()
  else Except.error "Normalised weights do not sum to 1"

/-- AlphaModel.calculate_weight_diffs (alpha_model.py lines 621-646).
The second loop refills assets that appear in the old weights but got no
entry in the first loop; with dict keys it is a filter against the keys
already present. -/
def AlphaModel.calculate_weight_diffs (m : AlphaModel) :
    Except String (List (Nat × ℚ)) :=
  let new_weights := m.signals.map (fun kv => (kv.2.pair.internal_id, kv.2.normalised_weight))
  let existing_weights := m.signals.map (fun kv => (kv.2.pair.internal_id, kv.2.old_weight))
  match check_normalised_weights new_weights with
  | Except.error e => Except.error e
  | Except.ok _ =>
    match check_normalised_weights existing_weights with
    | Except.error e => Except.error e
    | Except.ok _ =>
      let diffs := new_weights.map
        (fun kv => (kv.1, kv.2 - ((lookupA existing_weights kv.1).getD 0)))
      let refills := (existing_weights.filter
        (fun kv => (diffs.any (fun dv => dv.1 = kv.1)) = false)).map
        (fun kv => (kv.1, -kv.2))
      Except.ok (diffs ++ refills)

/-- Open trading position as seen by alpha_model.py: id, instrument and the
profit numbers read for record keeping (lines 766-772). -/
structure Position where
  position_id : Nat
  pair : TradingPairIdentifier
  total_profit_usd : ℚ := 0
  total_profit_pct : ℚ := 0
deriving DecidableEq, Repr

/-- Trade intent as observed by alpha_model.py: the position id carried by
the trade (line 863) and the key of the final sort (line 874). -/
structure TradeExecution where
  position_id : Nat
  execution_sort_position : Int := 0
deriving DecidableEq, Repr

/-- The external Position Manager collaborator
(src/tradeexecutor/strategy/pandas_trader/position_manager.py, external per
spec section 6), together with the strategy universe short-pair resolution
it carries.  Embedded as an abstract record of pure functions. -/
structure PositionManager where
  get_current_position_for_pair : TradingPairIdentifier → Option Position
  close_position : Position → List TradeExecution
  open_short : TradingPairIdentifier → ℚ → ℚ → Option ℚ → Option ℚ → Option ℚ → List TradeExecution
  adjust_short : Option Position → ℚ → List TradeExecution
  adjust_position : Option TradingPairIdentifier → ℚ → ℚ → ℚ → Option ℚ → Option ℚ → Option ℚ → Bool → List TradeExecution
  estimate_asset_quantity : TradingPairIdentifier → ℚ → ℚ
  get_shorting_pair : TradingPairIdentifier → TradingPairIdentifier

/-- AlphaModel.map_pair_for_signal (alpha_model.py lines 684-700). -/
def map_pair_for_signal (pm : PositionManager) (s : TradingPairSignal) :
    TradingPairIdentifier :=
  if 0 < s.signal then s.pair
  else if s.signal < 0 then pm.get_shorting_pair s.pair
  else s.pair

/-- Per-signal body of AlphaModel.calculate_target_positions
(alpha_model.py lines 661-682). -/
def calcSignalTarget (pm : PositionManager) (equity : ℚ) (s0 : TradingPairSignal) :
    TradingPairSignal :=
  let s1 := { s0 with position_target := s0.normalised_weight * equity }
  let s2 := { s1 with synthetic_pair := some (map_pair_for_signal pm s1) }
  if s2.is_flipping then
    { s2 with position_adjust_usd := s2.position_target }
  else
    let s3 := { s2 with position_adjust_usd := s2.position_target - s2.old_value }
    if s3.position_adjust_usd < 0 then
      { s3 with position_adjust_quantity :=
          pm.estimate_asset_quantity s3.pair s3.position_adjust_usd }
    else s3

/-- AlphaModel.calculate_target_positions (alpha_model.py lines 648-682). -/
def AlphaModel.calculate_target_positions (m : AlphaModel) (pm : PositionManager)
    (investable_equity : ℚ) : AlphaModel :=
  { m with
      investable_equity := investable_equity
      signals := m.signals.map (fun kv => (kv.1, calcSignalTarget pm investable_equity kv.2)) }

/-- Record keeping at the head of the per-signal rebalance loop
(alpha_model.py lines 765-772): look up the current position for old_pair
and copy its profit numbers onto the signal. -/
def recordProfit (pm : PositionManager) (s0 : TradingPairSignal) :
    Option Position × TradingPairSignal :=
  match s0.old_pair with
  | none => (none, s0)
  | some op =>
    match pm.get_current_position_for_pair op with
    | some p =>
      (some p, { s0 with
        profit_before_trades := p.total_profit_usd
        profit_before_trades_pct := p.total_profit_pct })
    | none => (none, { s0 with profit_before_trades := 0 })

/-- Close trades emitted when a signal flips direction
(alpha_model.py lines 800-810): close the position currently open for
old_pair, when there is one. -/
def flipCloseTrades (pm : PositionManager) (s : TradingPairSignal) :
    List TradeExecution :=
  if s.is_flipping then
    match s.old_pair with
    | none => []
    | some op =>
      match pm.get_current_position_for_pair op with
      | some old_position => pm.close_position old_position
      | none => []
  else []

/-- Short branch of the rebalance loop (alpha_model.py lines 812-837):
a short signal needs a leverage multiplier (the Python
`assert type(leverage) == float` fails on None); on a flip or a fresh
entry an open-short at the full target value, else an adjust-short. -/
def shortBranch (pm : PositionManager) (current : Option Position)
    (s : TradingPairSignal) : Except String (List TradeExecution) :=
  match s.leverage with
  | none => Except.error "Signal is short, but does not have a leverage multiplier set"
  | some leverage =>
    if s.is_flipping || s.is_new then
      Except.ok (pm.open_short s.pair s.position_target leverage
        s.take_profit s.stop_loss s.trailing_stop_loss)
    else
      Except.ok (pm.adjust_short current s.position_target)

/-- Non-dust rebalance branch (alpha_model.py lines 797-857): flip closes,
then short open/adjust, spot adjust, or the leveraged-long hard failure. -/
def rebalanceBranch (pm : PositionManager) (current : Option Position)
    (override_sl : Bool) (s : TradingPairSignal) :
    Except String (List TradeExecution) :=
  let closes := flipCloseTrades pm s
  if s.signal < 0 then
    match shortBranch pm current s with
    | Except.error e => Except.error e
    | Except.ok short_trades => Except.ok (closes ++ short_trades)
  else
    match s.leverage with
    | none =>
      Except.ok (closes ++ pm.adjust_position s.synthetic_pair
        s.position_adjust_usd s.position_adjust_quantity s.normalised_weight
        s.stop_loss s.take_profit s.trailing_stop_loss override_sl)
    | some _ => Except.error "Leveraged long missing"

/-- One iteration of the rebalance loop of
AlphaModel.generate_rebalance_trades_and_triggers (alpha_model.py lines
747-872) for one signal: returns the updated signal record and the trades
it emits.  The logging at line 774 dereferences synthetic_pair, so a
missing synthetic pair aborts before any branch is taken. -/
def processSignal (pm : PositionManager) (eps thr : ℚ) (override_sl : Bool)
    (s0 : TradingPairSignal) :
    Except String (TradingPairSignal × List TradeExecution) :=
  let cs := recordProfit pm s0
  let current := cs.1
  let s := cs.2
  match s.synthetic_pair with
  | none => Except.error "synthetic pair is not set before trade generation"
  | some _ =>
    if |s.position_adjust_usd| < thr ∧ s.is_flipping = false then
      Except.ok ({ s with position_adjust_ignored := true }, [])
    else if s.normalised_weight < eps then
      match current with
      | some p => Except.ok (s, pm.close_position p)
      | none => Except.ok (s, [])
    else
      match rebalanceBranch pm current override_sl s with
      | Except.error e => Except.error e
      | Except.ok [] => Except.error "Assuming always on trade for rebalance"
      | Except.ok (first :: rest) =>
        if first.position_id = 0 then
          Except.error "trade has no position id"
        else
          Except.ok ({ s with position_id := some first.position_id }, first :: rest)

/-- The rebalance loop over all selected signals, accumulating updated
signal records in place and concatenating the emitted trades. -/
def processAll (pm : PositionManager) (eps thr : ℚ) (override_sl : Bool) :
    List (Nat × TradingPairSignal) →
    Except String (List (Nat × TradingPairSignal) × List TradeExecution)
  | [] => Except.ok ([], [])
  | (k, s) :: rest =>
    match processSignal pm eps thr override_sl s with
    | Except.error e => Except.error e
    | Except.ok hd =>
      match processAll pm eps thr override_sl rest with
      | Except.error e => Except.error e
      | Except.ok tl => Except.ok ((k, hd.1) :: tl.1, hd.2 ++ tl.2)

/-- AlphaModel.generate_rebalance_trades_and_triggers (alpha_model.py lines
702-877): assert the spot-for-long flag, run the rebalance loop, and sort
the collected trades by their execution sort key (Python sort is stable,
as is mergeSort). -/
def AlphaModel.generate_rebalance_trades_and_triggers (m : AlphaModel)
    (pm : PositionManager) (min_trade_threshold : ℚ) (use_spot_for_long : Bool) :
    Except String (AlphaModel × List TradeExecution) :=
  if use_spot_for_long = false then
    Except.error "Leveraged long unsupported for now"
  else
    match processAll pm m.close_position_weight_epsilon min_trade_threshold
      m.override_stop_loss m.signals with
    | Except.error e => Except.error e
    | Except.ok res =>
      Except.ok ({ m with signals := res.1 },
        res.2.mergeSort (fun a b => a.execution_sort_position ≤ b.execution_sort_position))

/-! Concrete fixtures used by closed statements. -/

/-- A spot pair with internal id 1. -/
def pairA : TradingPairIdentifier := { internal_id := 1, kind := PairKind.spot }

/-- The synthetic short instrument derived from pairA. -/
def shortOfA : TradingPairIdentifier := { internal_id := 101, kind := PairKind.leveragedShort }

/-- A second spot pair with internal id 2. -/
def pairB : TradingPairIdentifier := { internal_id := 2, kind := PairKind.spot }

/-- An open position on pairA with id 7. -/
def posA : Position := { position_id := 7, pair := pairA }

/-- A concrete Position Manager: one open spot position on pairA; close,
open-short and adjust trades carry recognisable position ids, with closes
sorted before opens. -/
def pmFix : PositionManager :=
  { get_current_position_for_pair := fun p => if p = pairA then some posA else none
    close_position := fun p => [{ position_id := p.position_id, execution_sort_position := -1 }]
    open_short := fun _ _ _ _ _ _ => [{ position_id := 9, execution_sort_position := 1 }]
    adjust_short := fun c _ => [{ position_id := ((c.map Position.position_id).getD 9), execution_sort_position := 1 }]
    adjust_position := fun _ _ _ _ _ _ _ _ => [{ position_id := 8, execution_sort_position := 1 }]
    estimate_asset_quantity := fun _ q => q
    get_shorting_pair := fun _ => shortOfA }

/-- The rational 0.1 = 1/10 in reduced constructor form. -/
def tenth : ℚ := ⟨1, 10, by norm_num, by norm_num⟩

/-- The rational 0.003 = 3/1000 in reduced constructor form. -/
def threeThousandths : ℚ := ⟨3, 1000, by norm_num, by norm_num⟩

/-- A signal whose computed rebalance delta (-2 USD) is below the 10 USD
minimum trade threshold, holding an open spot position on pairA. -/
def sigSmall : TradingPairSignal :=
  { pair := pairA
    signal := 1
    normalised_weight := tenth
    old_weight := tenth
    old_value := 100
    old_pair := some pairA
    position_target := 98
    position_adjust_usd := -2
    synthetic_pair := some pairA }

/-! Theorems for the claims. -/

/-- Updating the profit bookkeeping fields does not change flip detection. -/
@[simp] theorem is_flipping_profit_update (s : TradingPairSignal) (x y : ℚ) :
    TradingPairSignal.is_flipping
      { s with profit_before_trades := x, profit_before_trades_pct := y } =
    s.is_flipping := rfl

/-- Updating the profit bookkeeping fields does not change is_new. -/
@[simp] theorem is_new_profit_update (s : TradingPairSignal) (x y : ℚ) :
    TradingPairSignal.is_new
      { s with profit_before_trades := x, profit_before_trades_pct := y } =
    s.is_new := rfl

/-- C2: for a spot pair and alpha < 0, set_signal is claimed to fail unless
leverage is a positive number.  The code rejects a missing leverage and a
negative leverage, but leverage = 0 slips through the Python truthiness
guard of TradingPairSignal.__post_init__ and the signal is stored with
leverage 0: the call succeeds on the failing input (pairA, alpha = -1,
leverage = 0). -/
theorem set_signal_zero_leverage_slips_through :
    AlphaModel.set_signal {} pairA (-1) none none none (some 0) =
      Except.ok { raw_signals := [(1, { pair := pairA, signal := -1, leverage := some 0 })] }
    ∧ AlphaModel.set_signal {} pairA (-1) none none none none =
      Except.error "Leverage must be set for short"
    ∧ AlphaModel.set_signal {} pairA (-1) none none none (some (-2)) =
      Except.error "leverage must be positive" := by
  refine ⟨?_, ?_, ?_⟩ <;> rfl

/-- C4: is_flipping holds exactly when the normalised weight is non-zero,
an old pair exists, and the old pair's instrument type (spot/long versus
short) is opposite to the sign of the new signal; closing to flat
(normalised_weight = 0) is never a flip. -/
theorem is_flipping_characterisation (s : TradingPairSignal) :
    (s.is_flipping = true ↔
      (s.normalised_weight ≠ 0 ∧ ∃ op, s.old_pair = some op ∧
        ((s.signal < 0 ∧ (op.is_long = true ∨ op.is_spot = true)) ∨
         (0 < s.signal ∧ op.is_short = true))))
    ∧ (s.normalised_weight = 0 → s.is_flipping = false) := by
  unfold TradingPairSignal.is_flipping
  by_cases hw : s.normalised_weight = 0
  · simp [hw]
  · cases hop : s.old_pair with
    | none => simp [hw, hop]
    | some op =>
      rcases lt_trichotomy s.signal 0 with hs | hs | hs
      · simp [hw, hop, hs, not_lt.mpr (le_of_lt hs), Bool.or_eq_true]
      · simp [hw, hop, hs]
      · simp [hw, hop, hs, not_lt.mpr (le_of_lt hs), lt_asymm hs]

/-! Helper lemmas shared by the claim theorems. -/

/-- recordProfit only touches the two profit bookkeeping fields. -/
theorem recordProfit_snd_fields (pm : PositionManager) (s : TradingPairSignal) :
    ∃ x y, (recordProfit pm s).2 =
      { s with profit_before_trades := x, profit_before_trades_pct := y } := by
  obtain ⟨pr, sg, sl, tp, tsl, rwt, nw, ow, ovl, opr, pt, pa, paq, pid, pig, pbt, pbtp, syn, lev⟩ := s
  unfold recordProfit
  cases opr with
  | none => exact ⟨pbt, pbtp, rfl⟩
  | some op =>
    cases hcur : pm.get_current_position_for_pair op with
    | none => exact ⟨0, pbtp, by simp only [hcur]⟩
    | some p => exact ⟨p.total_profit_usd, p.total_profit_pct, by simp only [hcur]⟩

/-- The current position picked up by recordProfit is the Position Manager
lookup for old_pair. -/
theorem recordProfit_fst_of (pm : PositionManager) (s : TradingPairSignal)
    (op : TradingPairIdentifier) (hop : s.old_pair = some op) :
    (recordProfit pm s).1 = pm.get_current_position_for_pair op := by
  unfold recordProfit
  cases hcur : pm.get_current_position_for_pair op with
  | none => simp only [hop, hcur]
  | some p => simp only [hop, hcur]

/-- recordProfit returns no current position when the signal has no old pair. -/
theorem recordProfit_fst_none (pm : PositionManager) (s : TradingPairSignal)
    (hop : s.old_pair = none) : (recordProfit pm s).1 = none := by
  unfold recordProfit
  simp only [hop]

/-- The rebalance loop keeps every signal record in the signals map:
the record at key k is replaced by the processSignal output for it. -/
theorem processAll_mem (pm : PositionManager) (eps thr : ℚ) (ov : Bool) :
    ∀ (l l' : List (Nat × TradingPairSignal)) (tr : List TradeExecution),
      processAll pm eps thr ov l = Except.ok (l', tr) →
      ∀ (k : Nat) (s : TradingPairSignal), (k, s) ∈ l →
      ∀ r, processSignal pm eps thr ov s = Except.ok r →
      (k, r.1) ∈ l'
  | [], _, _, hok => by
    intro k s hmem
    exact absurd hmem (List.not_mem_nil _)
  | (k₀, s₀) :: rest, l', tr, hok => by
    intro k s hmem r hps
    unfold processAll at hok
    cases hhd : processSignal pm eps thr ov s₀ with
    | error e => rw [hhd] at hok; cases hok
    | ok hd =>
      rw [hhd] at hok
      cases htl : processAll pm eps thr ov rest with
      | error e => rw [htl] at hok; cases hok
      | ok tl =>
        rw [htl] at hok
        cases hok
        rcases List.mem_cons.mp hmem with heq | hmem2
        · cases heq
          rw [hps] at hhd
          cases hhd
          exact List.mem_cons_self _ _
        · exact List.mem_cons_of_mem _
            (processAll_mem pm eps thr ov rest tl.1 tl.2 (by rw [htl]) k s hmem2 r hps)

/-- If the whole rebalance loop succeeds, every signal in it was processed
successfully. -/
theorem processAll_ok_forall (pm : PositionManager) (eps thr : ℚ) (ov : Bool) :
    ∀ (l : List (Nat × TradingPairSignal)) (res : List (Nat × TradingPairSignal) × List TradeExecution),
      processAll pm eps thr ov l = Except.ok res →
      ∀ (k : Nat) (s : TradingPairSignal), (k, s) ∈ l →
      ∃ r, processSignal pm eps thr ov s = Except.ok r
  | [], _, _ => by
    intro k s hmem
    exact absurd hmem (List.not_mem_nil _)
  | (k₀, s₀) :: rest, res, hok => by
    intro k s hmem
    unfold processAll at hok
    cases hhd : processSignal pm eps thr ov s₀ with
    | error e => rw [hhd] at hok; cases hok
    | ok hd =>
      rw [hhd] at hok
      cases htl : processAll pm eps thr ov rest with
      | error e => rw [htl] at hok; cases hok
      | ok tl =>
        rcases List.mem_cons.mp hmem with heq | hmem2
        · cases heq
          exact ⟨hd, hhd⟩
        · exact processAll_ok_forall pm eps thr ov rest tl (by rw [htl]) k s hmem2

/-- C3: a signal whose rebalance delta is below the minimum trade threshold
and which is not flipping is marked position_adjust_ignored, emits no
trade, and its record stays in the model's signals map. -/
theorem small_adjust_ignored_and_retained
    (pm : PositionManager) (eps thr : ℚ) (ov : Bool) (s : TradingPairSignal)
    (q : TradingPairIdentifier)
    (hsyn : s.synthetic_pair = some q)
    (hsmall : |s.position_adjust_usd| < thr)
    (hflip : s.is_flipping = false) :
    processSignal pm eps thr ov s =
      Except.ok ({ (recordProfit pm s).2 with position_adjust_ignored := true }, [])
    ∧ ∀ (m m' : AlphaModel) (k : Nat) (tr : List TradeExecution),
        m.close_position_weight_epsilon = eps → m.override_stop_loss = ov →
        (k, s) ∈ m.signals →
        m.generate_rebalance_trades_and_triggers pm thr true = Except.ok (m', tr) →
        (k, { (recordProfit pm s).2 with position_adjust_ignored := true }) ∈ m'.signals := by
  obtain ⟨x, y, hrp⟩ := recordProfit_snd_fields pm s
  have hsyn2 : (recordProfit pm s).2.synthetic_pair = some q := by rw [hrp]; exact hsyn
  have hsm2 : |(recordProfit pm s).2.position_adjust_usd| < thr := by rw [hrp]; exact hsmall
  have hfl2 : (recordProfit pm s).2.is_flipping = false := by
    rw [hrp, is_flipping_profit_update]; exact hflip
  have hps : processSignal pm eps thr ov s =
      Except.ok ({ (recordProfit pm s).2 with position_adjust_ignored := true }, []) := by
    simp only [processSignal]
    rw [hsyn2]
    simp [hsm2, hfl2]
  refine ⟨hps, ?_⟩
  intro m m' k tr heps hov hmem hgen
  unfold AlphaModel.generate_rebalance_trades_and_triggers at hgen
  rw [if_neg (by decide : ¬ (true = false))] at hgen
  cases hpa : processAll pm m.close_position_weight_epsilon thr m.override_stop_loss m.signals with
  | error e => rw [hpa] at hgen; cases hgen
  | ok res =>
    rw [hpa] at hgen
    cases hgen
    exact processAll_mem pm m.close_position_weight_epsilon thr m.override_stop_loss
      m.signals res.1 res.2 (by rw [hpa]) k s hmem _ (by rw [heps, hov]; exact hps)

/-- The model containing only sigSmall. -/
def mSmall : AlphaModel := { signals := [(1, sigSmall)] }

/-- sigSmall after the rebalance loop: marked ignored, nothing else changed. -/
def sigSmallIgnored : TradingPairSignal := { sigSmall with position_adjust_ignored := true }

/-- Witness for C3: with the 10 USD threshold and a -2 USD delta, sigSmall
is marked ignored, no trade is emitted, and its record survives the cycle. -/
theorem small_adjust_ignored_and_retained_witness :
    processSignal pmFix defaultCloseEpsilon 10 false sigSmall =
      Except.ok ({ (recordProfit pmFix sigSmall).2 with position_adjust_ignored := true }, [])
    ∧ (1, { (recordProfit pmFix sigSmall).2 with position_adjust_ignored := true }) ∈
      ({ mSmall with signals := [(1, sigSmallIgnored)] } : AlphaModel).signals := by
  have h := small_adjust_ignored_and_retained pmFix defaultCloseEpsilon 10 false sigSmall pairA
    (by decide) (by decide) (by decide)
  refine ⟨h.1, ?_⟩
  apply h.2 mSmall { mSmall with signals := [(1, sigSmallIgnored)] } 1 [] rfl rfl
    (by simp [mSmall])
  simp only [AlphaModel.generate_rebalance_trades_and_triggers]
  rw [if_neg (by decide : ¬ (true = false))]
  rw [show processAll pmFix mSmall.close_position_weight_epsilon 10
      mSmall.override_stop_loss mSmall.signals =
      Except.ok ([(1, sigSmallIgnored)], []) from rfl]
  simp

/-- A signal with dust weight 0.003 (below the default epsilon 0.005) for an
asset with an open spot position worth 5 USD; the computed delta is -2 USD,
below the 10 USD minimum trade threshold. -/
def sigDust : TradingPairSignal :=
  { pair := pairA
    signal := 1
    normalised_weight := threeThousandths
    old_weight := tenth
    old_value := 5
    old_pair := some pairA
    position_target := 3
    position_adjust_usd := -2
    synthetic_pair := some pairA }

/-- The model containing only sigDust. -/
def mDust : AlphaModel := { signals := [(1, sigDust)] }

/-- sigDust after the rebalance loop: only marked ignored. -/
def sigDustIgnored : TradingPairSignal := { sigDust with position_adjust_ignored := true }

/-- Counterexample for C1: sigDust has an open position and a normalised
weight 0.003 below the epsilon 0.005, yet generate_rebalance_trades_and_triggers
emits no trade at all (and no close in particular), because the -2 USD
delta falls under the minimum trade threshold check, which runs first. -/
theorem dust_close_skipped_when_below_trade_threshold :
    sigDust.normalised_weight < mDust.close_position_weight_epsilon
    ∧ pmFix.get_current_position_for_pair pairA = some posA
    ∧ sigDust.old_pair = some pairA
    ∧ mDust.generate_rebalance_trades_and_triggers pmFix 10 true =
        Except.ok ({ mDust with signals := [(1, sigDustIgnored)] }, []) := by
  refine ⟨by decide, by decide, by decide, ?_⟩
  simp only [AlphaModel.generate_rebalance_trades_and_triggers]
  rw [if_neg (by decide : ¬ (true = false))]
  rw [show processAll pmFix mDust.close_position_weight_epsilon 10
      mDust.override_stop_loss mDust.signals =
      Except.ok ([(1, sigDustIgnored)], []) from rfl]
  simp

/-- C1 amended: when the minimum-trade-threshold suppression does not apply
(the delta is at least the threshold, or the signal is flipping) and the
normalised weight is below close_position_weight_epsilon, the rebalance
loop emits exactly an explicit close of the open position for old_pair,
regardless of the delta's magnitude. -/
theorem dust_close_emitted_when_not_suppressed
    (pm : PositionManager) (eps thr : ℚ) (ov : Bool) (s : TradingPairSignal)
    (q op : TradingPairIdentifier) (p : Position)
    (hsyn : s.synthetic_pair = some q)
    (hgate : ¬ (|s.position_adjust_usd| < thr ∧ s.is_flipping = false))
    (heps : s.normalised_weight < eps)
    (hop : s.old_pair = some op)
    (hcur : pm.get_current_position_for_pair op = some p) :
    processSignal pm eps thr ov s =
      Except.ok ((recordProfit pm s).2, pm.close_position p) := by
  obtain ⟨x, y, hrp⟩ := recordProfit_snd_fields pm s
  have hsyn2 : (recordProfit pm s).2.synthetic_pair = some q := by rw [hrp]; exact hsyn
  have hgate2 :
      ¬ (|(recordProfit pm s).2.position_adjust_usd| < thr ∧
        (recordProfit pm s).2.is_flipping = false) := by
    rw [hrp, is_flipping_profit_update]; exact hgate
  have heps2 : (recordProfit pm s).2.normalised_weight < eps := by rw [hrp]; exact heps
  have hcur2 : (recordProfit pm s).1 = some p := by
    rw [recordProfit_fst_of pm s op hop]; exact hcur
  simp only [processSignal]
  rw [hsyn2]
  rw [if_neg hgate2, if_pos heps2, hcur2]

/-- A dust-weight signal whose delta -97 USD is above the trade threshold,
so the suppression gate does not apply. -/
def sigDustBig : TradingPairSignal :=
  { sigDust with old_value := 100, position_adjust_usd := -97 }

/-- Witness for the amended C1: sigDustBig (weight 0.003 < 0.005, delta
-97 USD) makes the rebalance loop emit exactly the close of position 7. -/
theorem dust_close_emitted_witness :
    processSignal pmFix defaultCloseEpsilon 10 false sigDustBig =
      Except.ok ((recordProfit pmFix sigDustBig).2, pmFix.close_position posA) :=
  dust_close_emitted_when_not_suppressed pmFix defaultCloseEpsilon 10 false sigDustBig
    pairA pairA posA (by decide) (by decide) (by decide) (by decide) (by decide)

/-- Updating position_target and synthetic_pair does not change flip detection. -/
@[simp] theorem is_flipping_target_update (s : TradingPairSignal) (x : ℚ)
    (y : Option TradingPairIdentifier) :
    TradingPairSignal.is_flipping { s with position_target := x, synthetic_pair := y } =
    s.is_flipping := rfl

/-- Updating position_target does not change the pair mapping. -/
@[simp] theorem map_pair_target_update (pm : PositionManager) (s : TradingPairSignal) (x : ℚ) :
    map_pair_for_signal pm { s with position_target := x } = map_pair_for_signal pm s := rfl

/-- C5: calculate_target_positions sets position_target to
normalised_weight times investable equity and resolves the synthetic pair;
a flipping signal gets position_adjust_usd equal to the full target,
otherwise the delta target minus old value, and a negative delta also gets
position_adjust_quantity from the Position Manager's quantity estimator. -/
theorem calculate_target_positions_spec
    (pm : PositionManager) (equity : ℚ) (m : AlphaModel) (k : Nat)
    (s : TradingPairSignal) (hmem : (k, s) ∈ m.signals) :
    (k, calcSignalTarget pm equity s) ∈ (m.calculate_target_positions pm equity).signals
    ∧ (calcSignalTarget pm equity s).position_target = s.normalised_weight * equity
    ∧ (calcSignalTarget pm equity s).synthetic_pair = some (map_pair_for_signal pm s)
    ∧ (s.is_flipping = true →
        (calcSignalTarget pm equity s).position_adjust_usd =
          (calcSignalTarget pm equity s).position_target)
    ∧ (s.is_flipping = false →
        (calcSignalTarget pm equity s).position_adjust_usd =
          (calcSignalTarget pm equity s).position_target - s.old_value
        ∧ ((calcSignalTarget pm equity s).position_adjust_usd < 0 →
            (calcSignalTarget pm equity s).position_adjust_quantity =
              pm.estimate_asset_quantity s.pair
                ((calcSignalTarget pm equity s).position_adjust_usd))) := by
  refine ⟨List.mem_map_of_mem _ hmem, ?_⟩
  cases hflip : s.is_flipping with
  | true =>
    simp only [calcSignalTarget, is_flipping_target_update, hflip, if_true]
    simp
  | false =>
    by_cases hneg : s.normalised_weight * equity - s.old_value < 0
    · simp only [calcSignalTarget, is_flipping_target_update, hflip]
      simp [hneg]
    · simp only [calcSignalTarget, is_flipping_target_update, hflip]
      simp [hneg]

/-- Witness for C5: the target and delta equations instantiated on sigSmall
(not flipping, positive delta is false here: target 100 minus old value 100
gives delta 0, not negative) inside mSmall with 1000 USD equity. -/
theorem calculate_target_positions_witness :
    (1, calcSignalTarget pmFix 1000 sigSmall) ∈
      (mSmall.calculate_target_positions pmFix 1000).signals
    ∧ (calcSignalTarget pmFix 1000 sigSmall).position_target =
        sigSmall.normalised_weight * 1000
    ∧ (calcSignalTarget pmFix 1000 sigSmall).position_adjust_usd =
        (calcSignalTarget pmFix 1000 sigSmall).position_target - sigSmall.old_value := by
  have h := calculate_target_positions_spec pmFix 1000 mSmall 1 sigSmall (by simp [mSmall])
  exact ⟨h.1, h.2.1, (h.2.2.2.2 (by decide)).1⟩

/-- Updating the profit bookkeeping fields does not change the flip closes. -/
@[simp] theorem flipCloseTrades_profit_update (pm : PositionManager)
    (s : TradingPairSignal) (x y : ℚ) :
    flipCloseTrades pm { s with profit_before_trades := x, profit_before_trades_pct := y } =
    flipCloseTrades pm s := rfl

/-- A non-flipping signal has no flip closes. -/
theorem flipCloseTrades_not_flipping (pm : PositionManager) (s : TradingPairSignal)
    (h : s.is_flipping = false) : flipCloseTrades pm s = [] := by
  simp [flipCloseTrades, h]

/-- Short branch without leverage: fatal. -/
theorem rebalanceBranch_short_no_leverage (pm : PositionManager) (cur : Option Position)
    (ov : Bool) (s : TradingPairSignal) (hneg : s.signal < 0) (hlev : s.leverage = none) :
    rebalanceBranch pm cur ov s =
      Except.error "Signal is short, but does not have a leverage multiplier set" := by
  simp only [rebalanceBranch, shortBranch]
  rw [if_pos hneg, hlev]

/-- Short branch, flipping or fresh: flip closes then an open-short at the
full position target. -/
theorem rebalanceBranch_short_open (pm : PositionManager) (cur : Option Position)
    (ov : Bool) (s : TradingPairSignal) (l : ℚ) (hneg : s.signal < 0)
    (hlev : s.leverage = some l) (hforn : (s.is_flipping || s.is_new) = true) :
    rebalanceBranch pm cur ov s =
      Except.ok (flipCloseTrades pm s ++
        pm.open_short s.pair s.position_target l s.take_profit s.stop_loss s.trailing_stop_loss) := by
  simp only [rebalanceBranch, shortBranch]
  rw [if_pos hneg, hlev]
  simp [hforn]

/-- Short branch, neither flipping nor fresh: an adjust-short toward the
target value (and no flip closes). -/
theorem rebalanceBranch_short_adjust (pm : PositionManager) (cur : Option Position)
    (ov : Bool) (s : TradingPairSignal) (l : ℚ) (hneg : s.signal < 0)
    (hlev : s.leverage = some l) (hflip : s.is_flipping = false) (hnew : s.is_new = false) :
    rebalanceBranch pm cur ov s = Except.ok (pm.adjust_short cur s.position_target) := by
  simp only [rebalanceBranch, shortBranch]
  rw [if_pos hneg, hlev]
  simp [hflip, hnew, flipCloseTrades_not_flipping pm s hflip]

/-- Non-short branch without leverage: flip closes then a spot adjust. -/
theorem rebalanceBranch_spot (pm : PositionManager) (cur : Option Position)
    (ov : Bool) (s : TradingPairSignal) (hpos : ¬ s.signal < 0) (hlev : s.leverage = none) :
    rebalanceBranch pm cur ov s =
      Except.ok (flipCloseTrades pm s ++
        pm.adjust_position s.synthetic_pair s.position_adjust_usd s.position_adjust_quantity
          s.normalised_weight s.stop_loss s.take_profit s.trailing_stop_loss ov) := by
  simp only [rebalanceBranch, shortBranch]
  rw [if_neg hpos, hlev]

/-- Non-short branch with a leverage set: the leveraged-long hard failure. -/
theorem rebalanceBranch_leveraged_long (pm : PositionManager) (cur : Option Position)
    (ov : Bool) (s : TradingPairSignal) (l : ℚ) (hpos : ¬ s.signal < 0)
    (hlev : s.leverage = some l) :
    rebalanceBranch pm cur ov s = Except.error "Leveraged long missing" := by
  simp only [rebalanceBranch, shortBranch]
  rw [if_neg hpos, hlev]

/-- Inversion for the non-ignored, non-dust rebalance path: a successful
processSignal means the branch produced exactly the returned non-empty
trade list, the first trade has a real position id, and the signal record
got that id attached. -/
theorem processSignal_else_inv
    (pm : PositionManager) (eps thr : ℚ) (ov : Bool) (s : TradingPairSignal)
    (q : TradingPairIdentifier)
    (hsyn : s.synthetic_pair = some q)
    (hgate : ¬ (|s.position_adjust_usd| < thr ∧ s.is_flipping = false))
    (hdust : ¬ (s.normalised_weight < eps))
    (s1 : TradingPairSignal) (tr : List TradeExecution)
    (hok : processSignal pm eps thr ov s = Except.ok (s1, tr)) :
    rebalanceBranch pm (recordProfit pm s).1 ov (recordProfit pm s).2 = Except.ok tr
    ∧ ∃ f r, tr = f :: r ∧ f.position_id ≠ 0
      ∧ s1 = { (recordProfit pm s).2 with position_id := some f.position_id } := by
  obtain ⟨x, y, hrp⟩ := recordProfit_snd_fields pm s
  have hsyn2 : (recordProfit pm s).2.synthetic_pair = some q := by rw [hrp]; exact hsyn
  have hgate2 :
      ¬ (|(recordProfit pm s).2.position_adjust_usd| < thr ∧
        (recordProfit pm s).2.is_flipping = false) := by
    rw [hrp, is_flipping_profit_update]; exact hgate
  have hdust2 : ¬ ((recordProfit pm s).2.normalised_weight < eps) := by rw [hrp]; exact hdust
  simp only [processSignal, hsyn2] at hok
  rw [if_neg hgate2, if_neg hdust2] at hok
  cases hrb : rebalanceBranch pm (recordProfit pm s).1 ov (recordProfit pm s).2 with
  | error e => simp only [hrb] at hok; exact (Except.noConfusion hok)
  | ok tr0 =>
    simp only [hrb] at hok
    split at hok
    · rename_i e heq
      exact Except.noConfusion heq
    · exact Except.noConfusion hok
    · rename_i first rest heq
      by_cases hid : first.position_id = 0
      · rw [if_pos hid] at hok
        exact Except.noConfusion hok
      · rw [if_neg hid] at hok
        cases hok
        cases heq
        exact ⟨rfl, first, rest, rfl, hid, by simp only [hsyn2]⟩

/-- Error propagation for the non-ignored, non-dust rebalance path. -/
theorem processSignal_else_error
    (pm : PositionManager) (eps thr : ℚ) (ov : Bool) (s : TradingPairSignal)
    (q : TradingPairIdentifier)
    (hsyn : s.synthetic_pair = some q)
    (hgate : ¬ (|s.position_adjust_usd| < thr ∧ s.is_flipping = false))
    (hdust : ¬ (s.normalised_weight < eps))
    (e : String)
    (herr : rebalanceBranch pm (recordProfit pm s).1 ov (recordProfit pm s).2 =
      Except.error e) :
    processSignal pm eps thr ov s = Except.error e := by
  obtain ⟨x, y, hrp⟩ := recordProfit_snd_fields pm s
  have hsyn2 : (recordProfit pm s).2.synthetic_pair = some q := by rw [hrp]; exact hsyn
  have hgate2 :
      ¬ (|(recordProfit pm s).2.position_adjust_usd| < thr ∧
        (recordProfit pm s).2.is_flipping = false) := by
    rw [hrp, is_flipping_profit_update]; exact hgate
  have hdust2 : ¬ ((recordProfit pm s).2.normalised_weight < eps) := by rw [hrp]; exact hdust
  simp only [processSignal, hsyn2]
  rw [if_neg hgate2, if_neg hdust2]
  simp only [herr]

/-- C6: a non-ignored, non-dust short signal needs a leverage multiplier
(fatal otherwise); flipping or previously flat signals open a short at the
full position target (preceded by the flip closes), other short signals
adjust the existing short toward the target value. -/
theorem short_signal_requires_leverage_and_sizing
    (pm : PositionManager) (eps thr : ℚ) (ov : Bool) (s : TradingPairSignal)
    (q : TradingPairIdentifier)
    (hsyn : s.synthetic_pair = some q)
    (hgate : ¬ (|s.position_adjust_usd| < thr ∧ s.is_flipping = false))
    (hdust : ¬ (s.normalised_weight < eps))
    (hneg : s.signal < 0) :
    (s.leverage = none →
      processSignal pm eps thr ov s =
        Except.error "Signal is short, but does not have a leverage multiplier set")
    ∧ ∀ l, s.leverage = some l →
        ((s.is_flipping = true ∨ s.old_weight = 0) →
          ∀ s1 tr, processSignal pm eps thr ov s = Except.ok (s1, tr) →
            tr = flipCloseTrades pm s ++
              pm.open_short s.pair s.position_target l s.take_profit s.stop_loss
                s.trailing_stop_loss)
        ∧ (s.is_flipping = false → ¬ s.old_weight = 0 →
          ∀ s1 tr, processSignal pm eps thr ov s = Except.ok (s1, tr) →
            tr = pm.adjust_short (recordProfit pm s).1 s.position_target) := by
  obtain ⟨x, y, hrp⟩ := recordProfit_snd_fields pm s
  have hneg2 : (recordProfit pm s).2.signal < 0 := by rw [hrp]; exact hneg
  constructor
  · intro hlev
    have hlev2 : (recordProfit pm s).2.leverage = none := by rw [hrp]; exact hlev
    exact processSignal_else_error pm eps thr ov s q hsyn hgate hdust _
      (rebalanceBranch_short_no_leverage pm (recordProfit pm s).1 ov
        (recordProfit pm s).2 hneg2 hlev2)
  · intro l hlev
    have hlev2 : (recordProfit pm s).2.leverage = some l := by rw [hrp]; exact hlev
    constructor
    · intro hforn s1 tr hok
      have hforn2 : ((recordProfit pm s).2.is_flipping || (recordProfit pm s).2.is_new) = true := by
        rw [hrp, is_flipping_profit_update, is_new_profit_update]
        rcases hforn with h | h
        · simp [h]
        · simp [TradingPairSignal.is_new, h]
      have hrb := rebalanceBranch_short_open pm (recordProfit pm s).1 ov
        (recordProfit pm s).2 l hneg2 hlev2 hforn2
      have h2 := (processSignal_else_inv pm eps thr ov s q hsyn hgate hdust s1 tr hok).1
      have htr := Except.ok.inj (hrb.symm.trans h2)
      rw [← htr, hrp]
      simp
    · intro hflip hnew s1 tr hok
      have hflip2 : (recordProfit pm s).2.is_flipping = false := by
        rw [hrp, is_flipping_profit_update]; exact hflip
      have hnew2 : (recordProfit pm s).2.is_new = false := by
        rw [hrp, is_new_profit_update]
        simp [TradingPairSignal.is_new, hnew]
      have hrb := rebalanceBranch_short_adjust pm (recordProfit pm s).1 ov
        (recordProfit pm s).2 l hneg2 hlev2 hflip2 hnew2
      have h2 := (processSignal_else_inv pm eps thr ov s q hsyn hgate hdust s1 tr hok).1
      have htr := Except.ok.inj (hrb.symm.trans h2)
      rw [← htr, hrp]

/-- A short signal flipping from an open spot position: weight 0.1,
target 500 USD, leverage 3. -/
def sigShortFlip : TradingPairSignal :=
  { pair := pairA
    signal := -1
    normalised_weight := tenth
    old_weight := tenth
    old_value := 600
    old_pair := some pairA
    position_target := 500
    position_adjust_usd := 500
    synthetic_pair := some shortOfA
    leverage := some 3 }

/-- Witness for C6: the flipping short sigShortFlip emits the close of the
old spot position (id 7) followed by an open-short sized at the full
500 USD target. -/
theorem short_signal_sizing_witness :
    [({ position_id := 7, execution_sort_position := -1 } : TradeExecution),
     ({ position_id := 9, execution_sort_position := 1 } : TradeExecution)] =
      flipCloseTrades pmFix sigShortFlip ++
        pmFix.open_short sigShortFlip.pair sigShortFlip.position_target 3
          sigShortFlip.take_profit sigShortFlip.stop_loss sigShortFlip.trailing_stop_loss := by
  have h := (short_signal_requires_leverage_and_sizing pmFix defaultCloseEpsilon 10 false
    sigShortFlip shortOfA (by decide) (by decide) (by decide) (by decide)).2 3 (by decide)
  exact h.1 (Or.inl (by decide)) _ _ rfl

/-- C7: a non-ignored, non-dust long signal carrying a leverage multiplier
makes generate_rebalance_trades_and_triggers fail hard; no spot trade is
emitted as a fallback. -/
theorem leveraged_long_hard_failure
    (pm : PositionManager) (thr : ℚ) (m : AlphaModel) (k : Nat)
    (s : TradingPairSignal) (q : TradingPairIdentifier) (l : ℚ)
    (hmem : (k, s) ∈ m.signals)
    (hsyn : s.synthetic_pair = some q)
    (hgate : ¬ (|s.position_adjust_usd| < thr ∧ s.is_flipping = false))
    (hdust : ¬ (s.normalised_weight < m.close_position_weight_epsilon))
    (hpos : 0 < s.signal)
    (hlev : s.leverage = some l) :
    ∃ e, m.generate_rebalance_trades_and_triggers pm thr true = Except.error e := by
  obtain ⟨x, y, hrp⟩ := recordProfit_snd_fields pm s
  have hneg2 : ¬ (recordProfit pm s).2.signal < 0 := by
    rw [hrp]; exact not_lt.mpr (le_of_lt hpos)
  have hlev2 : (recordProfit pm s).2.leverage = some l := by rw [hrp]; exact hlev
  have hps := processSignal_else_error pm m.close_position_weight_epsilon thr
    m.override_stop_loss s q hsyn hgate hdust _
    (rebalanceBranch_leveraged_long pm (recordProfit pm s).1 m.override_stop_loss
      (recordProfit pm s).2 l hneg2 hlev2)
  cases hpa : processAll pm m.close_position_weight_epsilon thr m.override_stop_loss
      m.signals with
  | error e =>
    refine ⟨e, ?_⟩
    unfold AlphaModel.generate_rebalance_trades_and_triggers
    rw [if_neg (by decide : ¬ (true = false))]
    simp only [hpa]
  | ok res =>
    exfalso
    obtain ⟨r, hr⟩ := processAll_ok_forall pm m.close_position_weight_epsilon thr
      m.override_stop_loss m.signals res hpa k s hmem
    rw [hps] at hr
    exact Except.noConfusion hr

/-- A long signal carrying a leverage multiplier (unsupported): weight 0.1,
delta 500 USD, leverage 2, previously flat. -/
def sigLevLong : TradingPairSignal :=
  { pair := pairA
    signal := 1
    normalised_weight := tenth
    position_target := 500
    position_adjust_usd := 500
    synthetic_pair := some pairA
    leverage := some 2 }

/-- Witness for C7: a model holding only sigLevLong fails hard. -/
theorem leveraged_long_hard_failure_witness :
    ∃ e, AlphaModel.generate_rebalance_trades_and_triggers
      { signals := [(1, sigLevLong)] } pmFix 10 true = Except.error e :=
  leveraged_long_hard_failure pmFix 10 { signals := [(1, sigLevLong)] } 1 sigLevLong
    pairA 2 (by decide) (by decide) (by decide) (by decide) (by decide) (by decide)

/-- Every successful rebalance branch result starts with the flip closes. -/
theorem rebalanceBranch_ok_prefix (pm : PositionManager) (cur : Option Position)
    (ov : Bool) (s : TradingPairSignal) (tr : List TradeExecution)
    (hok : rebalanceBranch pm cur ov s = Except.ok tr) :
    ∃ rest2, tr = flipCloseTrades pm s ++ rest2 := by
  simp only [rebalanceBranch] at hok
  by_cases hneg : s.signal < 0
  · rw [if_pos hneg] at hok
    cases hsb : shortBranch pm cur s with
    | error e => simp only [hsb] at hok; exact Except.noConfusion hok
    | ok st =>
      simp only [hsb] at hok
      cases hok
      exact ⟨st, rfl⟩
  · rw [if_neg hneg] at hok
    cases hlev : s.leverage with
    | none =>
      simp only [hlev] at hok
      cases hok
      exact ⟨_, rfl⟩
    | some l => simp only [hlev] at hok; exact Except.noConfusion hok

/-- C10: after a successful non-dust rebalance the signal record carries the
position id of the first emitted trade; on a flip whose close trades carry
the closed position's id this is the old position's id; the dust-close
branch never sets position_id. -/
theorem position_id_attachment
    (pm : PositionManager) (eps thr : ℚ) (ov : Bool) (s : TradingPairSignal)
    (q : TradingPairIdentifier)
    (hsyn : s.synthetic_pair = some q) :
    (¬ (|s.position_adjust_usd| < thr ∧ s.is_flipping = false) →
      ¬ (s.normalised_weight < eps) →
      ∀ s1 tr, processSignal pm eps thr ov s = Except.ok (s1, tr) →
        ∃ f r, tr = f :: r ∧ s1.position_id = some f.position_id)
    ∧ (∀ op p c cs,
        ¬ (|s.position_adjust_usd| < thr ∧ s.is_flipping = false) →
        ¬ (s.normalised_weight < eps) →
        s.is_flipping = true →
        s.old_pair = some op →
        pm.get_current_position_for_pair op = some p →
        pm.close_position p = c :: cs →
        (∀ t, t ∈ pm.close_position p → t.position_id = p.position_id) →
        ∀ s1 tr, processSignal pm eps thr ov s = Except.ok (s1, tr) →
          s1.position_id = some p.position_id)
    ∧ (¬ (|s.position_adjust_usd| < thr ∧ s.is_flipping = false) →
        s.normalised_weight < eps →
        s.position_id = none →
        ∀ s1 tr, processSignal pm eps thr ov s = Except.ok (s1, tr) →
          s1.position_id = none) := by
  obtain ⟨x, y, hrp⟩ := recordProfit_snd_fields pm s
  have hsyn2 : (recordProfit pm s).2.synthetic_pair = some q := by rw [hrp]; exact hsyn
  refine ⟨?_, ?_, ?_⟩
  · intro hgate hdust s1 tr hok
    obtain ⟨-, f, r, htr, -, hs1⟩ :=
      processSignal_else_inv pm eps thr ov s q hsyn hgate hdust s1 tr hok
    exact ⟨f, r, htr, by rw [hs1]⟩
  · intro op p c cs hgate hdust hflip hop hcur hcp hids s1 tr hok
    obtain ⟨hrb, f, r, htr, -, hs1⟩ :=
      processSignal_else_inv pm eps thr ov s q hsyn hgate hdust s1 tr hok
    have hflip2 : (recordProfit pm s).2.is_flipping = true := by
      rw [hrp, is_flipping_profit_update]; exact hflip
    have hop2 : (recordProfit pm s).2.old_pair = some op := by rw [hrp]; exact hop
    have hclose2 : flipCloseTrades pm (recordProfit pm s).2 = c :: cs := by
      simp only [flipCloseTrades, hflip2, hop2, hcur, if_true]
      exact hcp
    obtain ⟨rest2, hpre⟩ :=
      rebalanceBranch_ok_prefix pm (recordProfit pm s).1 ov (recordProfit pm s).2 tr hrb
    rw [hclose2] at hpre
    rw [htr] at hpre
    have hf : f = c := (List.cons.injEq .. ▸ hpre).1
    have hcid : c.position_id = p.position_id :=
      hids c (by rw [hcp]; exact List.mem_cons_self _ _)
    rw [hs1]
    simp only [hf, hcid]
  · intro hgate heps hpid s1 tr hok
    have hgate2 :
        ¬ (|(recordProfit pm s).2.position_adjust_usd| < thr ∧
          (recordProfit pm s).2.is_flipping = false) := by
      rw [hrp, is_flipping_profit_update]; exact hgate
    have heps2 : (recordProfit pm s).2.normalised_weight < eps := by rw [hrp]; exact heps
    simp only [processSignal, hsyn2] at hok
    rw [if_neg hgate2, if_pos heps2] at hok
    cases hcur0 : (recordProfit pm s).1 with
    | none =>
      simp only [hcur0] at hok
      cases hok
      rw [hrp]
      exact hpid
    | some p0 =>
      simp only [hcur0] at hok
      cases hok
      rw [hrp]
      exact hpid

/-- Witness for C10: on the flip sigShortFlip both trades are emitted, the
signal record gets the first trade's id 7, which is the closed old spot
position's id (not id 9 of the new short); the dust-handled sigDustBig
keeps position_id = none. -/
theorem position_id_attachment_witness :
    (∃ f r,
      [({ position_id := 7, execution_sort_position := -1 } : TradeExecution),
       { position_id := 9, execution_sort_position := 1 }] = f :: r ∧
      ({ sigShortFlip with position_id := some 7 } : TradingPairSignal).position_id =
        some f.position_id)
    ∧ ({ sigShortFlip with position_id := some 7 } : TradingPairSignal).position_id =
        some posA.position_id
    ∧ sigDustBig.position_id = none := by
  have h := position_id_attachment pmFix defaultCloseEpsilon 10 false sigShortFlip
    shortOfA (by decide)
  have hd := position_id_attachment pmFix defaultCloseEpsilon 10 false sigDustBig
    pairA (by decide)
  refine ⟨?_, ?_, ?_⟩
  · exact h.1 (by decide) (by decide) _ _ rfl
  · exact h.2.1 pairA posA { position_id := 7, execution_sort_position := -1 } []
      (by decide) (by decide) (by decide) (by decide) (by decide) (by decide)
      (by intro t ht; simp [pmFix] at ht; subst ht; rfl) _ _ rfl
  · exact hd.2.2 (by decide) (by decide) (by decide) _ _ rfl

/-- Association-list lookup over a keyed map of a list with distinct keys
finds the value attached to each element. -/
theorem lookupA_map_self {β : Type} (keyf : β → Nat) (valf : β → ℚ) :
    ∀ (l : List β), (l.map keyf).Nodup → ∀ a ∈ l,
      lookupA (l.map (fun b => (keyf b, valf b))) (keyf a) = some (valf a)
  | [], _, a, ha => absurd ha (List.not_mem_nil a)
  | b :: t, hnd, a, ha => by
    rcases List.mem_cons.mp ha with heq | hmem
    · subst heq
      simp [lookupA, List.find?]
    · by_cases hk : keyf b = keyf a
      · exfalso
        rw [List.map_cons, List.nodup_cons] at hnd
        exact hnd.1 (hk ▸ List.mem_map_of_mem keyf hmem)
      · have ih := lookupA_map_self keyf valf t
          (by rw [List.map_cons, List.nodup_cons] at hnd; exact hnd.2) a hmem
        unfold lookupA at ih ⊢
        rw [List.map_cons, List.find?_cons_of_neg _ (by simpa using hk)]
        exact ih

/-- A successful association-list lookup means the key occurs in the map. -/
theorem lookupA_map_mem {β : Type} (keyf : β → Nat) (valf : β → ℚ)
    (l : List β) (k : Nat) (w : ℚ)
    (h : lookupA (l.map (fun b => (keyf b, valf b))) k = some w) :
    k ∈ l.map keyf := by
  unfold lookupA at h
  cases hf : (l.map (fun b => (keyf b, valf b))).find? (fun kv => kv.1 = k) with
  | none => rw [hf] at h; cases h
  | some kv =>
    have hp := List.find?_some hf
    have hmem := List.mem_of_find?_eq_some hf
    rcases List.mem_map.mp hmem with ⟨b, hb, hbe⟩
    rw [← hbe] at hp
    simp only [decide_eq_true_eq] at hp
    exact hp ▸ List.mem_map_of_mem keyf hb

/-- A key occurring in the keyed map makes the lookup succeed. -/
theorem lookupA_map_isSome {β : Type} (keyf : β → Nat) (valf : β → ℚ)
    (l : List β) (k : Nat) (hk : k ∈ l.map keyf) :
    (lookupA (l.map (fun b => (keyf b, valf b))) k).isSome := by
  rcases List.mem_map.mp hk with ⟨b, hb, hbe⟩
  unfold lookupA
  cases hf : (l.map (fun b => (keyf b, valf b))).find? (fun kv => kv.1 = k) with
  | some kv => simp
  | none =>
    exfalso
    have := List.find?_eq_none.mp hf (keyf b, valf b) (List.mem_map_of_mem _ hb)
    simp [hbe] at this

/-- Sum of pointwise differences over a list. -/
theorem list_sum_map_sub {β : Type} (l : List β) (f g : β → ℚ) :
    (l.map (fun b => f b - g b)).sum = (l.map f).sum - (l.map g).sum := by
  induction l with
  | nil => simp
  | cons b t ih =>
    simp only [List.map_cons, List.sum_cons, ih]
    ring

/-- C9: when calculate_weight_diffs succeeds (distinct pair ids, as Python
dict keys are), the diffs sum to the new weight sum minus the old weight
sum; an asset in the old weight set missing from the new set would get
diff = -old_weight (vacuous here, both sets share their keys); an asset
with zero new weight gets diff = -old_weight. -/
theorem calculate_weight_diffs_conservation
    (m : AlphaModel) (diffs : List (Nat × ℚ))
    (hnd : (m.signals.map (fun kv => kv.2.pair.internal_id)).Nodup)
    (hok : m.calculate_weight_diffs = Except.ok diffs) :
    (diffs.map (fun kv => kv.2)).sum =
      (m.signals.map (fun kv => kv.2.normalised_weight)).sum -
        (m.signals.map (fun kv => kv.2.old_weight)).sum
    ∧ (∀ idv w,
        lookupA (m.signals.map (fun kv => (kv.2.pair.internal_id, kv.2.old_weight))) idv =
          some w →
        lookupA (m.signals.map (fun kv => (kv.2.pair.internal_id, kv.2.normalised_weight))) idv =
          none →
        lookupA diffs idv = some (-w))
    ∧ (∀ kv ∈ m.signals, kv.2.normalised_weight = 0 →
        lookupA diffs kv.2.pair.internal_id = some (-kv.2.old_weight)) := by
  simp only [AlphaModel.calculate_weight_diffs] at hok
  cases hc1 : check_normalised_weights
      (m.signals.map (fun kv => (kv.2.pair.internal_id, kv.2.normalised_weight))) with
  | error e => simp only [hc1] at hok; exact Except.noConfusion hok
  | ok u1 =>
  cases hc2 : check_normalised_weights
      (m.signals.map (fun kv => (kv.2.pair.internal_id, kv.2.old_weight))) with
  | error e => simp only [hc1, hc2] at hok; exact Except.noConfusion hok
  | ok u2 =>
  simp only [hc1, hc2] at hok
  have hd1 :
      ((m.signals.map (fun kv => (kv.2.pair.internal_id, kv.2.normalised_weight))).map
        (fun kv => (kv.1, kv.2 -
          ((lookupA (m.signals.map (fun kv => (kv.2.pair.internal_id, kv.2.old_weight)))
            kv.1).getD 0)))) =
      m.signals.map (fun kv =>
        (kv.2.pair.internal_id, kv.2.normalised_weight - kv.2.old_weight)) := by
    rw [List.map_map]
    apply List.map_congr_left
    intro kv hkv
    have hl := lookupA_map_self (fun kv => kv.2.pair.internal_id)
      (fun kv => kv.2.old_weight) m.signals hnd kv hkv
    simp only [Function.comp]
    rw [hl]
    rfl
  rw [hd1] at hok
  have hrefill :
      ((m.signals.map (fun kv => (kv.2.pair.internal_id, kv.2.old_weight))).filter
        (fun kv => ((m.signals.map (fun kv =>
          (kv.2.pair.internal_id, kv.2.normalised_weight - kv.2.old_weight))).any
            (fun dv => dv.1 = kv.1)) = false)) = [] := by
    rw [List.filter_eq_nil_iff]
    intro a ha
    rcases List.mem_map.mp ha with ⟨b, hb, hbe⟩
    have hmem : ((b.2.pair.internal_id, b.2.normalised_weight - b.2.old_weight) :
        Nat × ℚ) ∈ m.signals.map (fun kv =>
          (kv.2.pair.internal_id, kv.2.normalised_weight - kv.2.old_weight)) :=
      List.mem_map_of_mem _ hb
    have hany : ((m.signals.map (fun kv =>
        (kv.2.pair.internal_id, kv.2.normalised_weight - kv.2.old_weight))).any
          (fun dv => dv.1 = a.1)) = true := by
      rw [List.any_eq_true]
      exact ⟨_, hmem, by rw [← hbe]; simp⟩
    simp [hany]
  rw [hrefill] at hok
  simp only [List.map_nil, List.append_nil] at hok
  cases hok
  refine ⟨?_, ?_, ?_⟩
  · rw [List.map_map]
    have : ((fun kv => kv.2) ∘ (fun kv : Nat × TradingPairSignal =>
        (kv.2.pair.internal_id, kv.2.normalised_weight - kv.2.old_weight))) =
        (fun kv : Nat × TradingPairSignal => kv.2.normalised_weight - kv.2.old_weight) := rfl
    rw [this]
    exact list_sum_map_sub m.signals (fun kv => kv.2.normalised_weight)
      (fun kv => kv.2.old_weight)
  · intro idv w h1 h2
    exfalso
    have hkmem := lookupA_map_mem (fun kv => kv.2.pair.internal_id)
      (fun kv => kv.2.old_weight) m.signals idv w h1
    have hs := lookupA_map_isSome (fun kv => kv.2.pair.internal_id)
      (fun kv => kv.2.normalised_weight) m.signals idv hkmem
    rw [h2] at hs
    cases hs
  · intro kv hkv h0
    have hl := lookupA_map_self (fun kv => kv.2.pair.internal_id)
      (fun kv => kv.2.normalised_weight - kv.2.old_weight) m.signals hnd kv hkv
    rw [hl]
    simp [h0]

/-- A signal entering the portfolio: full new weight, no old weight. -/
def sigWA : TradingPairSignal :=
  { pair := pairA, signal := 1, normalised_weight := 1, old_weight := 0 }

/-- A signal leaving the portfolio: zero new weight, full old weight. -/
def sigWB : TradingPairSignal :=
  { pair := pairB, signal := 0, normalised_weight := 0, old_weight := 1 }

/-- The model with sigWA entering and sigWB leaving. -/
def mWeights : AlphaModel := { signals := [(1, sigWA), (2, sigWB)] }

/-- Witness for C9: on mWeights the diffs are [(1, 1), (2, -1)]; their sum
equals new minus old weight sums and the leaving asset gets -old_weight. -/
theorem calculate_weight_diffs_conservation_witness :
    (([((1 : Nat), (1 : ℚ)), (2, -1)].map (fun kv => kv.2)).sum =
      (mWeights.signals.map (fun kv => kv.2.normalised_weight)).sum -
        (mWeights.signals.map (fun kv => kv.2.old_weight)).sum)
    ∧ lookupA [((1 : Nat), (1 : ℚ)), (2, -1)] 2 = some (-sigWB.old_weight) := by
  have hok : mWeights.calculate_weight_diffs = Except.ok [(1, 1), (2, -1)] := by
    simp only [AlphaModel.calculate_weight_diffs, mWeights, check_normalised_weights, lookupA,
      sigWA, sigWB, pairA, pairB]
    norm_num [List.find?]
  have h := calculate_weight_diffs_conservation mWeights [(1, 1), (2, -1)] (by decide) hok
  exact ⟨h.1, h.2.2 (2, sigWB) (by decide) (by decide)⟩

/-- The list of signals chosen by select_top_signals, before keying:
the raw signals passing the inclusive strength filter, sorted by
descending raw_weight (stable), truncated to count. -/
def topSignalsList (m : AlphaModel) (count : Nat) (threshold : ℚ) :
    List TradingPairSignal :=
  (((m.raw_signals.map (fun kv => kv.2)).filter
    (fun s => threshold ≤ |s.signal|)).mergeSort
      (fun a b => b.raw_weight ≤ a.raw_weight)).take count

/-- C8: select_top_signals stores exactly topSignalsList keyed by pair id;
every selected signal is a raw signal passing the inclusive threshold; the
selection size is count capped by the filtered count; and the selection
splits the filtered signals so that every selected signal has raw_weight at
least that of every unselected one. -/
theorem select_top_signals_spec (m : AlphaModel) (count : Nat) (threshold : ℚ) :
    (m.select_top_signals count threshold).signals =
      (topSignalsList m count threshold).map (fun s => (s.pair.internal_id, s))
    ∧ (∀ s ∈ topSignalsList m count threshold,
        threshold ≤ |s.signal| ∧ s ∈ m.raw_signals.map (fun kv => kv.2))
    ∧ (topSignalsList m count threshold).length =
        min count (((m.raw_signals.map (fun kv => kv.2)).filter
          (fun s => threshold ≤ |s.signal|)).length)
    ∧ ∃ rest,
        ((m.raw_signals.map (fun kv => kv.2)).filter
          (fun s => threshold ≤ |s.signal|)).Perm
            (topSignalsList m count threshold ++ rest)
        ∧ ∀ s ∈ topSignalsList m count threshold, ∀ t ∈ rest,
            t.raw_weight ≤ s.raw_weight := by
  refine ⟨rfl, ?_, ?_, ?_⟩
  · intro s hs
    have hs2 : s ∈ ((m.raw_signals.map (fun kv => kv.2)).filter
        (fun s => threshold ≤ |s.signal|)).mergeSort
          (fun a b => b.raw_weight ≤ a.raw_weight) :=
      List.take_subset _ _ hs
    rw [List.mem_mergeSort] at hs2
    have h2 := List.mem_filter.mp hs2
    exact ⟨of_decide_eq_true h2.2, h2.1⟩
  · unfold topSignalsList
    rw [List.length_take, List.length_mergeSort]
  · refine ⟨(((m.raw_signals.map (fun kv => kv.2)).filter
      (fun s => threshold ≤ |s.signal|)).mergeSort
        (fun a b => b.raw_weight ≤ a.raw_weight)).drop count, ?_, ?_⟩
    · unfold topSignalsList
      rw [List.take_append_drop]
      exact (List.mergeSort_perm _ _).symm
    · intro s hs t ht
      have hpw := @List.sorted_mergeSort TradingPairSignal
        (fun a b => b.raw_weight ≤ a.raw_weight)
        (by
          intro a b c hab hbc
          simp only [decide_eq_true_eq] at hab hbc ⊢
          exact le_trans hbc hab)
        (by
          intro a b
          simp only [Bool.or_eq_true, decide_eq_true_eq]
          exact le_total _ _)
        ((m.raw_signals.map (fun kv => kv.2)).filter (fun s => threshold ≤ |s.signal|))
      rw [← List.take_append_drop count (((m.raw_signals.map (fun kv => kv.2)).filter
        (fun s => threshold ≤ |s.signal|)).mergeSort
          (fun a b => b.raw_weight ≤ a.raw_weight))] at hpw
      have h3 := (List.pairwise_append.mp hpw).2.2 s hs t ht
      exact of_decide_eq_true h3

end TradeExec
